import Mathlib

/-!
# Verification of the lighthouse pledge-aggregation core

A shallow embedding of the Go repository `rohenaz/lighthouse` (core
crowdfunding engine: `core/project.go`, `core/pledge.go`, the contract
aggregator) together with theorems settling the specification claims.

Machine integers (`uint64`, `uint32`) are modelled as `Nat`: every amount in
the source is a satoshi value far below `2^64` and no operation in the
embedded code overflows for the inputs the theorems quantify over; byte
strings (`[]byte`) are `List Nat`.

`NewPledge` scales outputs with Go `float64` arithmetic, so the embedding
carries an exact model of IEEE-754 binary64 round-to-nearest-even (for
values in the normal range, which covers every satoshi amount below `2^53`).
-/

/-! ## Exact model of IEEE-754 binary64 arithmetic (Go `float64`)

A (finite, non-negative) binary64 value is represented exactly as a dyadic
rational `m * 2^e`.  `f64OfRat p q` rounds the positive rational `p/q` to the
nearest representable value, ties to even, assuming the result lies in the
normal, non-overflowing range `[2^-148, 2^148]` (amply covering every value
arising from satoshi amounts below `2^53`). -/

structure F64 where
  m : Nat
  e : Int
deriving DecidableEq

def expOk (p q : Nat) (e : Int) : Bool :=
  if 0 ≤ e then
    decide (2 ^ 52 * q * 2 ^ e.toNat ≤ p) && decide (p < 2 ^ 53 * q * 2 ^ e.toNat)
  else
    decide (2 ^ 52 * q ≤ p * 2 ^ (-e).toNat) && decide (p * 2 ^ (-e).toNat < 2 ^ 53 * q)

def f64SearchExp (p q : Nat) : Nat → Int → Int
  | 0, e => e
  | fuel + 1, e => if expOk p q e then e else f64SearchExp p q fuel (e + 1)

def f64Exp (p q : Nat) : Int :=
  f64SearchExp p q 400 (-200)

/-- Round `n / d` to the nearest integer, ties to even. -/
def rne (n d : Nat) : Nat :=
  let q := n / d
  let r := n % d
  if 2 * r < d then q
  else if d < 2 * r then q + 1
  else if q % 2 = 0 then q else q + 1

/-- Round the non-negative rational `p / q` to the nearest binary64 value. -/
def f64OfRat (p q : Nat) : F64 :=
  if p = 0 then ⟨0, 0⟩
  else
    let e := f64Exp p q
    if 0 ≤ e then ⟨rne p (q * 2 ^ e.toNat), e⟩
    else ⟨rne (p * 2 ^ (-e).toNat) q, e⟩

/-- The exact value `m * 2^e` of a binary64 datum, as a numerator/denominator
pair of naturals. -/
def F64.parts (x : F64) : Nat × Nat :=
  if 0 ≤ x.e then (x.m * 2 ^ x.e.toNat, 1) else (x.m, 2 ^ (-x.e).toNat)

/-- Go conversion `float64(n)` for `n : uint64`. -/
def f64OfNat (n : Nat) : F64 :=
  f64OfRat n 1

/-- Go binary64 division `x / y` (exact quotient, one rounding). -/
def f64Div (x y : F64) : F64 :=
  let px := x.parts
  let py := y.parts
  f64OfRat (px.1 * py.2) (px.2 * py.1)

/-- Go binary64 multiplication `x * y` (exact product, one rounding). -/
def f64Mul (x y : F64) : F64 :=
  let px := x.parts
  let py := y.parts
  f64OfRat (px.1 * py.1) (px.2 * py.2)

/-- Go conversion `uint64(x)` for a non-negative binary64 `x`: truncation
toward zero. -/
def f64TruncNat (x : F64) : Nat :=
  if 0 ≤ x.e then x.m * 2 ^ x.e.toNat else x.m / 2 ^ (-x.e).toNat

/-- The output-scaling computation of `NewPledge` (`core/pledge.go:62-66`):
`uint64(float64(satoshis) * (float64(amount) / float64(goal)))`. -/
def goScaleOutput (satoshis amount goal : Nat) : Nat :=
  f64TruncNat (f64Mul (f64OfNat satoshis) (f64Div (f64OfNat amount) (f64OfNat goal)))

/-! ## Transactions and UTXOs (go-sdk values used by the core)

Only the fields the core reads or writes are modelled.  `UnlockingScript` is a
nullable pointer in Go (`nil` and present-but-empty are distinct), hence
`Option (List Nat)`.  `sourceSatoshis` models the satoshi value attached to an
input by `SetSourceTxOutput` when the input is built from a UTXO; inputs
reconstructed by `LoadPledge` carry no source value (`none`). -/

structure TransactionInput where
  sourceTXID : List Nat
  sourceTxOutIndex : Nat
  unlockingScript : Option (List Nat)
  sequenceNumber : Nat
  sourceSatoshis : Option Nat
deriving DecidableEq

structure TransactionOutput where
  satoshis : Nat
  lockingScript : List Nat
deriving DecidableEq

structure Transaction where
  inputs : List TransactionInput
  outputs : List TransactionOutput
deriving DecidableEq

structure UTXO where
  txID : List Nat
  vout : Nat
  lockingScript : List Nat
  satoshis : Nat
deriving DecidableEq

/-- Modelled from the spec: the external SDK call
`Transaction.AddInputsFromUTXOs` (SigningLedger collaborator, §6) appends, for
every UTXO in order, one input carrying that UTXO's outpoint, the default
sequence number `0xFFFFFFFF`, no unlocking script yet, and the UTXO's satoshi
value as its source-output value; it never fails. -/
def utxoInput (u : UTXO) : TransactionInput :=
  ⟨u.txID, u.vout, none, 4294967295, some u.satoshis⟩

/-! ## Persisted protobuf messages (`PersistenceFormat`, spec §6)

The proto schema (`proto/lighthouse.proto`, generated code under
`core/proto/`) is not under `src/`; the message shapes are modelled from the
spec's PersistenceFormat contract and the fields the core accesses.

Modelled from the spec: the wire encoding (protobuf `Marshal`/`Unmarshal`) is
deterministic and round-trips byte-exactly, and `id` is a content-derived
identifier (SHA-256 of the canonical serialization, collision-free on the
contents in use); we therefore model the serialized form of a message, and
hence the derived identifier, by the message value itself. -/

structure PbOutput where
  amount : Nat
  script : List Nat
deriving DecidableEq

structure PbProjectDetails where
  network : String
  outputs : List PbOutput
  time : Nat
  expires : Option Nat
  memo : String
deriving DecidableEq

structure PbProjectExtraDetails where
  title : String
  minPledgeAmount : Nat
  authKey : List Nat
  coverImage : List Nat
deriving DecidableEq

structure PbProject where
  version : Nat
  details : Option PbProjectDetails
  extra : Option PbProjectExtraDetails
  tags : List String
deriving DecidableEq

/-- A project identifier (`Project.ID()`; see the serialization model above). -/
def ProjectID : Type := PbProject
deriving instance DecidableEq for ProjectID

structure PbInput where
  txHash : List Nat
  outputIndex : Nat
  unlockScript : List Nat
  sequence : Nat
deriving DecidableEq

structure PbContactInfo where
  name : String
  email : String
deriving DecidableEq

structure PbPledge where
  projectId : ProjectID
  inputs : List PbInput
  time : Nat
  memo : String
  refundAddress : String
  contact : Option PbContactInfo
deriving DecidableEq

/-- A pledge identifier (`Pledge.ID()`; see the serialization model above). -/
def PledgeID : Type := PbPledge
deriving instance DecidableEq for PledgeID

/-! ## Project (`core/project.go`) -/

/-- Modelled from the spec: the SigningLedger collaborator's
`decodeAddress`/`buildLockingScript` pair (§6), used by `NewProject` via
`script.NewAddressFromString` + `p2pkh.Lock` (external go-sdk code).  A
mainnet P2PKH base58 address is well-formed only in a 26–35 character range
starting with the version character; the resulting locking script is a
deterministic function of the address. -/
def decodeAddress (s : String) : Option (List Nat) :=
  match s.data with
  | [] => none
  | c :: rest =>
    if c = '1' ∧ 26 ≤ rest.length + 1 ∧ rest.length + 1 ≤ 35 then
      some (118 :: 169 :: 20 :: ((c :: rest).map Char.toNat ++ [136, 172]))
    else none

structure Project where
  pb : PbProject
  id : ProjectID
  goalAmount : Nat
deriving DecidableEq

/-- `Project.calculateID` (`core/project.go:102-106`): SHA-256 of the
serialized message, under the serialization model above. -/
def calculateProjectID (m : PbProject) : ProjectID := m

inductive ProjectError
  | titleDescriptionRequired
  | goalAmountZero
  | invalidAddress
deriving DecidableEq

/-- `NewProject` (`core/project.go:26-71`).  The Go code reads the clock
(`timestamppb.Now()`); the clock is passed explicitly as `now`. -/
def NewProject (title description : String) (goalAmount : Nat) (address : String)
    (now : Nat) : Except ProjectError Project :=
  if title = "" ∨ description = "" then .error .titleDescriptionRequired
  else if goalAmount = 0 then .error .goalAmountZero
  else
    match decodeAddress address with
    | none => .error .invalidAddress
    | some lockingScript =>
      let pbp : PbProject :=
        { version := 1
          details := some
            { network := "mainnet"
              outputs := [⟨goalAmount, lockingScript⟩]
              time := now
              expires := none
              memo := description }
          extra := some
            { title := title
              minPledgeAmount := 10000
              authKey := []
              coverImage := [] }
          tags := [] }
      .ok ⟨pbp, calculateProjectID pbp, goalAmount⟩

/-- `Project.Serialize` (`core/project.go:92-94`), under the serialization
model: the canonical wire form of the message is the message itself. -/
def Project.Serialize (p : Project) : PbProject := p.pb

/-- `LoadProject` (`core/project.go:74-89`): recomputes `goalAmount` as the
sum of the decoded outputs' amounts and recomputes `id`.  The Go code
dereferences `proj.Details` without a nil check (a runtime panic when the
details message is absent); that is modelled as a failure. -/
def LoadProject (m : PbProject) : Except String Project :=
  match m.details with
  | none => .error "nil details dereference"
  | some d => .ok ⟨m, calculateProjectID m, (d.outputs.map PbOutput.amount).sum⟩

def Project.ID (p : Project) : ProjectID := p.id

def Project.Title (p : Project) : String :=
  match p.pb.extra with
  | some e => e.title
  | none => ""

def Project.Description (p : Project) : String :=
  match p.pb.details with
  | some d => d.memo
  | none => ""

def Project.GoalAmount (p : Project) : Nat := p.goalAmount

def Project.MinPledgeAmount (p : Project) : Nat :=
  match p.pb.extra with
  | some e => if 0 < e.minPledgeAmount then e.minPledgeAmount else 10000
  | none => 10000

/-- `Project.Outputs` (`core/project.go:146-162`). -/
def Project.Outputs (p : Project) : Except String (List TransactionOutput) :=
  match p.pb.details with
  | none => .error "project has no details"
  | some d => .ok (d.outputs.map fun o => ⟨o.amount, o.script⟩)

/-! ## Pledge (`core/pledge.go`) -/

structure Pledge where
  pb : PbPledge
  id : PledgeID
  amount : Nat
  tx : Transaction
deriving DecidableEq

/-- `Pledge.calculateID` (`core/pledge.go:184-188`), under the serialization
model above. -/
def calculatePledgeID (m : PbPledge) : PledgeID := m

def Pledge.ID (p : Pledge) : PledgeID := p.id

def Pledge.Amount (p : Pledge) : Nat := p.amount

def Pledge.ProjectID (p : Pledge) : ProjectID := p.pb.projectId

inductive NewPledgeError
  | belowMinimum (amount minimum : Nat)
  | insufficientFunds (haveTotal needTotal : Nat)
  | projectOutputs (msg : String)
deriving DecidableEq

/-- The accumulation loop of `NewPledge` (`core/pledge.go:43-48`): add each
UTXO's satoshis in order, breaking as soon as the running total reaches
`amount`. -/
def selectTotal (amount : Nat) : Nat → List UTXO → Nat
  | acc, [] => acc
  | acc, u :: rest =>
    let acc2 := acc + u.satoshis
    if amount ≤ acc2 then acc2 else selectTotal amount acc2 rest

/-- `NewPledge` (`core/pledge.go:29-98`).  The clock read
(`timestamppb.Now()`) is passed explicitly as `now`. -/
def NewPledge (project : Project) (amount : Nat) (utxos : List UTXO)
    (now : Nat) : Except NewPledgeError Pledge :=
  if amount < project.MinPledgeAmount then
    .error (.belowMinimum amount project.MinPledgeAmount)
  else
    let txInputs := utxos.map utxoInput
    let totalInput := selectTotal amount 0 utxos
    if totalInput < amount then .error (.insufficientFunds totalInput amount)
    else
      match project.Outputs with
      | .error msg => .error (.projectOutputs msg)
      | .ok outs =>
        let txOutputs := outs.map fun out =>
          (⟨goScaleOutput out.satoshis amount project.GoalAmount,
            out.lockingScript⟩ : TransactionOutput)
        let pbInputs := txInputs.map fun i =>
          (⟨i.sourceTXID, i.sourceTxOutIndex, [], i.sequenceNumber⟩ : PbInput)
        let pbp : PbPledge := ⟨project.ID, pbInputs, now, "", "", none⟩
        .ok ⟨pbp, calculatePledgeID pbp, amount, ⟨txInputs, txOutputs⟩⟩

inductive LoadPledgeError
  | invalidTxHash
deriving DecidableEq

/-- The input-reconstruction loop of `LoadPledge` (`core/pledge.go:146-161`):
`chainhash.NewHash` fails unless the stored hash is exactly 32 bytes; the
unlocking script pointer is always set (possibly to an empty script) and no
source-output value is attached. -/
def loadInputs : List PbInput → Except LoadPledgeError (List TransactionInput)
  | [] => .ok []
  | i :: rest =>
    if i.txHash.length = 32 then
      match loadInputs rest with
      | .ok xs => .ok (⟨i.txHash, i.outputIndex, some i.unlockScript, i.sequence, none⟩ :: xs)
      | .error e => .error e
    else .error .invalidTxHash

/-- `LoadPledge` (`core/pledge.go:135-171`): the amount is initialized to `0`
and never recovered from the message, and no outputs are reconstructed. -/
def LoadPledge (m : PbPledge) : Except LoadPledgeError Pledge :=
  match loadInputs m.inputs with
  | .error e => .error e
  | .ok ins => .ok ⟨m, calculatePledgeID m, 0, ⟨ins, []⟩⟩

inductive PledgeValidateError
  | noInputs
  | noOutputs
  | inputNotSigned (index : Nat)
deriving DecidableEq

/-- An input with a nil or empty unlocking script (`core/pledge.go:242`). -/
def unsignedInput (input : TransactionInput) : Bool :=
  match input.unlockingScript with
  | none => true
  | some s => s.isEmpty

/-- `Pledge.Validate` (`core/pledge.go:227-249`).  The leading nil-transaction
guard of the Go code is unreachable for pledges produced by `NewPledge` or
`LoadPledge`, which always attach a transaction, so the embedding keeps the
transaction as a plain field. -/
def Pledge.Validate (p : Pledge) : Option PledgeValidateError :=
  if p.tx.inputs.isEmpty then some .noInputs
  else if p.tx.outputs.isEmpty then some .noOutputs
  else
    match p.tx.inputs.findIdx? unsignedInput with
    | some i => some (.inputNotSigned i)
    | none => none

/-! ## Contract (the aggregator) -/

structure Contract where
  project : Project
  pledges : List Pledge
  combined : Option Transaction
deriving DecidableEq

/-- `NewContract`. -/
def NewContract (project : Project) : Contract :=
  ⟨project, [], none⟩

/-- The map key `fmt.Sprintf("%x:%d", input.SourceTXID, input.SourceTxOutIndex)`
used by `hasDuplicateInputs`: hex of the 32-byte source transaction id plus the
output index, injective on outpoints, modelled as the pair itself. -/
def inputKey (i : TransactionInput) : List Nat × Nat :=
  (i.sourceTXID, i.sourceTxOutIndex)

/-- `Contract.hasDuplicateInputs`: true iff some input of `p2` shares its
`(sourceTxId, outputIndex)` key with some input of `p1`. -/
def hasDuplicateInputs (p1 p2 : Pledge) : Bool :=
  p2.tx.inputs.any fun i => p1.tx.inputs.any fun j => inputKey j == inputKey i

inductive AddPledgeError
  | wrongProject
  | invalidPledge (e : PledgeValidateError)
  | duplicateInputs
deriving DecidableEq

/-- `Contract.AddPledge`: reject a pledge for a different project, an invalid
pledge, or a pledge sharing an input with a previously accepted pledge;
otherwise append it.  On error the Go method returns before mutating the
receiver, so the pledge list (and the cached combined transaction) are
unchanged; note that on success the Go method does *not* touch the cached
combined transaction either. -/
def Contract.AddPledge (c : Contract) (p : Pledge) : Except AddPledgeError Contract :=
  if p.ProjectID ≠ c.project.ID then .error .wrongProject
  else
    match p.Validate with
    | some e => .error (.invalidPledge e)
    | none =>
      if c.pledges.any fun existing => hasDuplicateInputs existing p then
        .error .duplicateInputs
      else .ok { c with pledges := c.pledges ++ [p] }

/-- `Contract.TotalPledged`: sum of the accepted pledges' amounts. -/
def Contract.TotalPledged (c : Contract) : Nat :=
  (c.pledges.map Pledge.Amount).sum

/-- `Contract.CanClaim`: the goal is reached. -/
def Contract.CanClaim (c : Contract) : Bool :=
  c.project.GoalAmount ≤ c.TotalPledged

inductive CombineError
  | goalNotReached (total goal : Nat)
  | projectOutputs (msg : String)
deriving DecidableEq

/-- The change-adding block of `Contract.Combine` (`if inputValue >
outputValue { ... if len(tx.Outputs) > 0 { tx.Outputs[0].Satoshis += change } }`):
add `change` to the first output's satoshis, when there is one. -/
def bumpFirst (outs : List TransactionOutput) (change : Nat) : List TransactionOutput :=
  match outs with
  | [] => []
  | o :: rest => { o with satoshis := o.satoshis + change } :: rest

/-- `Contract.Combine`: fails with the current total/goal pair when the goal
is unreached; otherwise concatenates every pledge's inputs in insertion
order, appends the project's payout outputs, takes `inputValue` to be the sum
of the pledge *amounts* (the source comment: "we'll trust the pledge
amount"), adds any excess of it over the payout total to the first output,
and caches the result.  The Go method mutates the receiver only by setting
the cache, returned here as the second component. -/
def Contract.Combine (c : Contract) : Except CombineError (Transaction × Contract) :=
  if ¬ c.CanClaim then .error (.goalNotReached c.TotalPledged c.project.GoalAmount)
  else
    let txInputs := (c.pledges.map fun p => p.tx.inputs).flatten
    let inputValue := c.TotalPledged
    match c.project.Outputs with
    | .error msg => .error (.projectOutputs msg)
    | .ok outs =>
      let outputValue := (outs.map TransactionOutput.satoshis).sum
      let txOutputs :=
        if outputValue < inputValue then bumpFirst outs (inputValue - outputValue)
        else outs
      let tx : Transaction := ⟨txInputs, txOutputs⟩
      .ok (tx, { c with combined := some tx })

/-- The removal loop of `Contract.RemovePledge`: drop the first pledge whose
id matches, `none` when no pledge matches. -/
def removeFirstPledge (pledgeID : PledgeID) : List Pledge → Option (List Pledge)
  | [] => none
  | p :: rest =>
    if p.ID = pledgeID then some rest
    else
      match removeFirstPledge pledgeID rest with
      | some xs => some (p :: xs)
      | none => none

/-- `Contract.RemovePledge`: removes a pledge by identifier; the cached
combined transaction is *not* discarded by the Go method. -/
def Contract.RemovePledge (c : Contract) (pledgeID : PledgeID) : Except String Contract :=
  match removeFirstPledge pledgeID c.pledges with
  | some ps => .ok { c with pledges := ps }
  | none => .error "pledge not found"

/-- The sum of the source-output values attached to a transaction's inputs
(an input with no attached source value contributes nothing). -/
def txInputValueSum (tx : Transaction) : Nat :=
  (tx.inputs.map fun i => i.sourceSatoshis.getD 0).sum

/-! ## Concrete example values used by witnesses and counterexamples -/

set_option maxRecDepth 8000

/-- A 32-byte source transaction id. -/
def h32 : List Nat := List.replicate 32 7

/-- A second, distinct 32-byte source transaction id. -/
def h32b : List Nat := List.replicate 32 9

/-- A signed transaction input spending `(txid, idx)` whose source output
holds `sat` satoshis. -/
def signedInput (txid : List Nat) (idx sat : Nat) : TransactionInput :=
  ⟨txid, idx, some [1, 2], 4294967295, some sat⟩

/-- A minimal project message with a single payout output of `g` satoshis. -/
def tinyPb (g : Nat) : PbProject :=
  ⟨1, some ⟨"mainnet", [⟨g, [1]⟩], 0, none, "d"⟩, some ⟨"t", 10000, [], []⟩, []⟩

/-- A minimal well-formed project with goal `g` (one payout output of the
full goal, as `NewProject` produces). -/
def tinyProject (g : Nat) : Project :=
  ⟨tinyPb g, calculateProjectID (tinyPb g), g⟩

/-- A signed pledge of `amt` satoshis toward `pr`, spending `(txid, 0)` with
source value `sat`, with the single scaled output `outSat`. -/
def mkPledge (pr : Project) (txid : List Nat) (amt sat outSat : Nat) : Pledge :=
  ⟨⟨pr.ID, [⟨txid, 0, [1, 2], 4294967295⟩], 0, "", "", none⟩,
   calculatePledgeID ⟨pr.ID, [⟨txid, 0, [1, 2], 4294967295⟩], 0, "", "", none⟩,
   amt, ⟨[signedInput txid 0 sat], [⟨outSat, [1]⟩]⟩⟩

/-! ## C1 -/

/-- C1: `Contract.Combine` fails with a `GoalNotReachedError` carrying the
current `TotalPledged` and `goalAmount` iff `TotalPledged < goalAmount`; on
success the transaction's inputs are the concatenation of all accepted
pledges' inputs in insertion order (so its input count is the sum of the
pledges' input counts), its output count equals the project's payout output
count, and the result is cached as the combined transaction. -/
theorem combine_goal_and_shape (c : Contract) :
    (c.Combine = .error (.goalNotReached c.TotalPledged c.project.GoalAmount)
      ↔ c.TotalPledged < c.project.GoalAmount)
    ∧ (∀ tx c2, c.Combine = .ok (tx, c2) →
        tx.inputs = (c.pledges.map fun p => p.tx.inputs).flatten
        ∧ tx.inputs.length = (c.pledges.map fun p => p.tx.inputs.length).sum
        ∧ (∀ outs, c.project.Outputs = .ok outs → tx.outputs.length = outs.length)
        ∧ c2.combined = some tx) := by
  constructor
  · constructor
    · intro h
      by_cases hlt : c.TotalPledged < c.project.GoalAmount
      · exact hlt
      · exfalso
        have hcc : c.CanClaim = true := by
          simp only [Contract.CanClaim, decide_eq_true_eq]
          omega
        rw [Contract.Combine] at h
        simp only [hcc] at h
        cases houts : c.project.Outputs with
        | error msg => simp [houts] at h
        | ok outs => simp [houts] at h
    · intro hlt
      have hcc : c.CanClaim = false := by
        simp only [Contract.CanClaim, decide_eq_false_iff_not]
        omega
      rw [Contract.Combine]
      simp [hcc]
  · intro tx c2 h
    by_cases hcc : c.CanClaim
    · rw [Contract.Combine] at h
      simp only [hcc] at h
      cases houts : c.project.Outputs with
      | error msg => simp [houts] at h
      | ok outs =>
        simp only [houts, not_true_eq_false, if_false, Except.ok.injEq, Prod.mk.injEq] at h
        obtain ⟨htx, hc2⟩ := h
        subst htx hc2
        refine ⟨rfl, ?_, ?_, rfl⟩
        · show ((c.pledges.map fun p => p.tx.inputs).flatten).length = _
          rw [List.length_flatten, List.map_map]
          exact rfl
        · intro outs2 houts2
          have heq : outs2 = outs := (Except.ok.inj houts2).symm
          subst heq
          show (if _ then bumpFirst outs2 _ else outs2).length = outs2.length
          split
          · cases outs2 with
            | nil => rfl
            | cons o rest => rfl
          · rfl
    · rw [Contract.Combine] at h
      simp [hcc] at h

/-- A project with goal 10000 (one payout output of 10000 satoshis). -/
def exProj : Project := tinyProject 10000

/-- A signed pledge of 10000 toward `exProj` whose single input's source
output holds 30000 satoshis (inputs overshoot the pledged amount). -/
def exPl1 : Pledge := mkPledge exProj h32 10000 30000 10000

/-- A contract over `exProj` holding `exPl1`; the goal is exactly reached. -/
def exC1 : Contract := ⟨exProj, [exPl1], none⟩

/-- The transaction `exC1.Combine` produces. -/
def exTx1 : Transaction := ⟨[signedInput h32 0 30000], [⟨10000, [1]⟩]⟩

/-- The contract state after `exC1.Combine` (result cached). -/
def exC1b : Contract := ⟨exProj, [exPl1], some exTx1⟩

/-- Witness for C1 at a concrete contract whose goal is reached. -/
theorem combine_goal_and_shape_witness :
    exC1.Combine = .ok (exTx1, exC1b)
    ∧ exTx1.inputs = (exC1.pledges.map fun p => p.tx.inputs).flatten
    ∧ exC1b.combined = some exTx1 := by
  have h := (combine_goal_and_shape exC1).2 exTx1 exC1b rfl
  exact ⟨rfl, h.1, h.2.2.2⟩

/-! ## C2 -/

/-- C2 counterexample: in `exC1`, the combined transaction's inputs carry
30000 satoshis of source value against 10000 satoshis of payout outputs, so
the claim's surplus (sum of input values minus payout total) is 20000 > 0 and
the claim predicts a first output of 30000; the code leaves the first output
at 10000, because it computes the surplus from the pledge *amounts* (10000),
not the input values. -/
theorem combine_surplus_claim_cex :
    exC1.Combine = .ok (exTx1, exC1b)
    ∧ txInputValueSum exTx1 = 30000
    ∧ exC1.project.Outputs = .ok [⟨10000, [1]⟩]
    ∧ 10000 < txInputValueSum exTx1 - 10000 + 10000
    ∧ txInputValueSum exTx1 - 10000 = 20000
    ∧ exTx1.outputs.map TransactionOutput.satoshis = [10000]
    ∧ exTx1.outputs.map TransactionOutput.satoshis
        ≠ [10000 + (txInputValueSum exTx1 - 10000)] :=
  ⟨rfl, rfl, rfl, by decide, by decide, rfl, by decide⟩

/-- C2 (amended): when `Combine` succeeds, the surplus is computed from the
sum of the accepted pledges' amounts (`TotalPledged`), not from the combined
transaction's input values; if that surplus is positive the whole of it is
added to the first payout output and the remaining payout outputs keep their
original amounts. -/
theorem combine_surplus_spec (c : Contract) (tx : Transaction) (c2 : Contract)
    (outs : List TransactionOutput)
    (hok : c.Combine = .ok (tx, c2)) (houts : c.project.Outputs = .ok outs) :
    tx.outputs =
      if (outs.map TransactionOutput.satoshis).sum < c.TotalPledged then
        bumpFirst outs (c.TotalPledged - (outs.map TransactionOutput.satoshis).sum)
      else outs := by
  by_cases hcc : c.CanClaim
  · rw [Contract.Combine] at hok
    simp only [hcc, not_true_eq_false, if_false, houts, Except.ok.injEq, Prod.mk.injEq] at hok
    obtain ⟨htx, hc2⟩ := hok
    subst htx
    rfl
  · rw [Contract.Combine] at hok
    simp [hcc] at hok

/-- A signed pledge of 12000 toward `exProj` (overshooting the goal). -/
def plW2 : Pledge := mkPledge exProj h32 12000 30000 12000

/-- A contract over `exProj` holding `plW2`: `TotalPledged` = 12000 against a
payout total of 10000, so the code's surplus is 2000. -/
def cW2 : Contract := ⟨exProj, [plW2], none⟩

/-- The transaction `cW2.Combine` produces (first output bumped by 2000). -/
def txW2 : Transaction := ⟨[signedInput h32 0 30000], [⟨12000, [1]⟩]⟩

/-- The contract state after `cW2.Combine`. -/
def cW2b : Contract := ⟨exProj, [plW2], some txW2⟩

/-- Witness for the amended C2 at a concrete contract with positive surplus. -/
theorem combine_surplus_spec_witness :
    txW2.outputs
      = if (([⟨10000, [1]⟩] : List TransactionOutput).map TransactionOutput.satoshis).sum < cW2.TotalPledged
        then bumpFirst [⟨10000, [1]⟩]
          (cW2.TotalPledged - (([⟨10000, [1]⟩] : List TransactionOutput).map TransactionOutput.satoshis).sum)
        else [⟨10000, [1]⟩] :=
  combine_surplus_spec cW2 txW2 cW2b [⟨10000, [1]⟩] rfl rfl

/-! ## C3 -/

/-- A well-formed mainnet P2PKH address (34 characters). -/
def exAddr : String := "1NKNazRR5jKgGqELVHDK47JAZrqtAWWy5q"

/-- The locking script `decodeAddress exAddr` yields. -/
def exScript : List Nat := 118 :: 169 :: 20 :: (exAddr.data.map Char.toNat ++ [136, 172])

/-- The project message `NewProject "Test" "Desc" 16553 exAddr 0` builds. -/
def p3Pb : PbProject :=
  ⟨1, some ⟨"mainnet", [⟨16553, exScript⟩], 0, none, "Desc"⟩, some ⟨"Test", 10000, [], []⟩, []⟩

/-- The project `NewProject "Test" "Desc" 16553 exAddr 0` creates: goal
16553, one payout output of 16553 satoshis. -/
def p3Ex : Project := ⟨p3Pb, calculateProjectID p3Pb, 16553⟩

/-- A 20000-satoshi UTXO. -/
def u3Ex : UTXO := ⟨h32, 0, [2], 20000⟩

/-- The pledge message `NewPledge p3Ex 10000 [u3Ex] 0` builds. -/
def pl3Pb : PbPledge := ⟨p3Ex.ID, [⟨h32, 0, [], 4294967295⟩], 0, "", "", none⟩

/-- The pledge `NewPledge p3Ex 10000 [u3Ex] 0` creates.  Its single output
holds 9999 satoshis: the binary64 ratio `10000/16553` falls just below the
exact value, and truncating `16553 * float64(10000/16553)` loses one
satoshi. -/
def pl3Ex : Pledge :=
  ⟨pl3Pb, calculatePledgeID pl3Pb, 10000, ⟨[utxoInput u3Ex], [⟨9999, exScript⟩]⟩⟩

/-- C3 counterexample: for the validly created project with goal 16553 and a
pledge of amount 10000, the code's float64 scaling produces an output of
9999 satoshis, while exact integer multiply-then-divide gives
`floor(16553 * 10000 / 16553) = 10000`. -/
theorem pledge_scale_claim_cex :
    NewProject "Test" "Desc" 16553 exAddr 0 = .ok p3Ex
    ∧ NewPledge p3Ex 10000 [u3Ex] 0 = .ok pl3Ex
    ∧ p3Ex.Outputs = .ok [⟨16553, exScript⟩]
    ∧ pl3Ex.tx.outputs.map TransactionOutput.satoshis = [9999]
    ∧ 16553 * 10000 / 16553 = 10000
    ∧ pl3Ex.tx.outputs.map TransactionOutput.satoshis ≠ [16553 * 10000 / 16553] :=
  ⟨rfl, rfl, rfl, rfl, by decide, by decide⟩

/-- C3 (amended): each output of a pledge built by `NewPledge` has amount
`uint64(float64(payout.satoshis) * (float64(amount) / float64(goal)))`,
computed in binary64 floating point with final truncation toward zero — not
exact integer multiply-then-divide, from which it can differ (see the
counterexample). -/
theorem pledge_scale_spec (project : Project) (amount : Nat) (utxos : List UTXO)
    (now : Nat) (p : Pledge) (outs : List TransactionOutput)
    (hok : NewPledge project amount utxos now = .ok p)
    (houts : project.Outputs = .ok outs) :
    p.tx.outputs = outs.map fun out =>
      ⟨goScaleOutput out.satoshis amount project.GoalAmount, out.lockingScript⟩ := by
  by_cases hmin : amount < project.MinPledgeAmount
  · rw [NewPledge] at hok
    simp [hmin] at hok
  · by_cases hins : selectTotal amount 0 utxos < amount
    · rw [NewPledge] at hok
      simp [hmin, hins] at hok
    · rw [NewPledge] at hok
      simp only [if_neg hmin, if_neg hins, houts, Except.ok.injEq] at hok
      subst hok
      rfl

/-- Witness for the amended C3 at the concrete counterexample inputs. -/
theorem pledge_scale_spec_witness :
    pl3Ex.tx.outputs
      = ([⟨16553, exScript⟩] : List TransactionOutput).map fun out =>
          ⟨goScaleOutput out.satoshis 10000 p3Ex.GoalAmount, out.lockingScript⟩ :=
  pledge_scale_spec p3Ex 10000 [u3Ex] 0 pl3Ex [⟨16553, exScript⟩] rfl rfl

/-! ## C4 -/

/-- A second signed pledge toward `exProj`, spending a different outpoint. -/
def pl4b : Pledge := mkPledge exProj h32b 10000 10000 10000

/-- `exC1b` after removing `exPl1`: the pledge list is empty but the cached
combined transaction survives. -/
def c4c : Contract := ⟨exProj, [], some exTx1⟩

/-- `exC1b` after accepting `pl4b`: the pledge list grew but the cached
combined transaction survives. -/
def c4d : Contract := ⟨exProj, [exPl1, pl4b], some exTx1⟩

/-- C4 (code bug): after a successful `Combine` caches `combinedTx`, a
successful `RemovePledge` and a successful `AddPledge` both leave the stale
cached transaction in place and observable, contradicting the spec's
invalidation requirement (which §9 of the spec itself flags as a likely
defect in the source). -/
theorem combine_cache_never_invalidated :
    exC1.Combine = .ok (exTx1, exC1b)
    ∧ exC1b.combined = some exTx1
    ∧ exC1b.RemovePledge exPl1.ID = .ok c4c
    ∧ c4c.combined = some exTx1
    ∧ c4c.combined ≠ none
    ∧ exC1b.AddPledge pl4b = .ok c4d
    ∧ c4d.combined = some exTx1
    ∧ c4d.combined ≠ none :=
  ⟨rfl, rfl, rfl, rfl, by decide, rfl, rfl, by decide⟩

/-! ## C5 -/

/-- `Pledge.Validate` succeeds exactly on structurally valid pledges:
non-empty inputs, non-empty outputs, and no input with a nil or empty
unlocking script. -/
theorem validate_eq_none_iff (p : Pledge) :
    p.Validate = none ↔
      (p.tx.inputs ≠ [] ∧ p.tx.outputs ≠ []
        ∧ ∀ i ∈ p.tx.inputs, unsignedInput i = false) := by
  rw [Pledge.Validate]
  constructor
  · intro h
    by_cases hin : p.tx.inputs.isEmpty
    · simp [hin] at h
    · by_cases hout : p.tx.outputs.isEmpty
      · simp [hin, hout] at h
      · simp only [hin, hout, if_false] at h
        refine ⟨by simpa [List.isEmpty_iff] using hin, by simpa [List.isEmpty_iff] using hout, ?_⟩
        cases hf : p.tx.inputs.findIdx? unsignedInput with
        | some i => rw [hf] at h; cases h
        | none =>
          intro i hi
          have := List.findIdx?_eq_none_iff.mp hf
          exact this i hi
  · rintro ⟨hin, hout, hall⟩
    have hin2 : p.tx.inputs.isEmpty = false := by simpa [List.isEmpty_iff] using hin
    have hout2 : p.tx.outputs.isEmpty = false := by simpa [List.isEmpty_iff] using hout
    have hf : p.tx.inputs.findIdx? unsignedInput = none :=
      List.findIdx?_eq_none_iff.mpr hall
    simp [hin2, hout2, hf]

/-- C5: `Contract.AddPledge` succeeds iff the pledge targets the contract's
project, is structurally valid (non-empty inputs and outputs, every input
signed), and shares no `(sourceTxId, outputIndex)` with a previously
accepted pledge's inputs; on success it appends the pledge, preserving
insertion order (and on failure the functional result carries no new state,
matching the Go method's early returns before any mutation). -/
theorem addPledge_spec (c : Contract) (p : Pledge) :
    ((∃ c2, c.AddPledge p = .ok c2) ↔
      ¬(p.ProjectID ≠ c.project.ID
        ∨ p.tx.inputs = [] ∨ p.tx.outputs = []
        ∨ (∃ i ∈ p.tx.inputs, unsignedInput i = true)
        ∨ ∃ q ∈ c.pledges, hasDuplicateInputs q p = true))
    ∧ (∀ c2, c.AddPledge p = .ok c2 →
        c2.pledges = c.pledges ++ [p] ∧ c2.project = c.project ∧ c2.combined = c.combined) := by
  constructor
  · rw [Contract.AddPledge]
    by_cases hproj : p.ProjectID ≠ c.project.ID
    · simp [hproj]
    · simp only [hproj, if_false]
      cases hv : p.Validate with
      | some e =>
        have hv2 : ¬(p.tx.inputs ≠ [] ∧ p.tx.outputs ≠ []
            ∧ ∀ i ∈ p.tx.inputs, unsignedInput i = false) := by
          intro hcontra
          rw [(validate_eq_none_iff p).mpr hcontra] at hv
          cases hv
        constructor
        · rintro ⟨c2, hc2⟩
          cases hc2
        · intro hnone
          exfalso
          apply hv2
          push_neg at hnone
          obtain ⟨h1, h2, h3, h4, h5⟩ := hnone
          refine ⟨h2, h3, ?_⟩
          intro i hi
          simpa using h4 i hi
      | none =>
        have hstruct := (validate_eq_none_iff p).mp hv
        by_cases hdup : (c.pledges.any fun existing => hasDuplicateInputs existing p) = true
        · rw [List.any_eq_true] at hdup
          obtain ⟨q, hq, hqq⟩ := hdup
          constructor
          · rintro ⟨c2, hc2⟩
            rw [if_pos (List.any_eq_true.mpr ⟨q, hq, hqq⟩)] at hc2
            cases hc2
          · intro hnone
            exact absurd (Or.inr (Or.inr (Or.inr (Or.inr ⟨q, hq, hqq⟩)))) hnone
        · rw [if_neg hdup]
          constructor
          · intro _
            rintro (h | h | h | h | h)
            · cases h
            · exact hstruct.1 h
            · exact hstruct.2.1 h
            · obtain ⟨i, hi, hb⟩ := h
              rw [hstruct.2.2 i hi] at hb
              cases hb
            · obtain ⟨q, hq, hqq⟩ := h
              exact hdup (List.any_eq_true.mpr ⟨q, hq, hqq⟩)
          · intro _
            exact ⟨_, rfl⟩
  · intro c2 h
    rw [Contract.AddPledge] at h
    by_cases hproj : p.ProjectID ≠ c.project.ID
    · simp [hproj] at h
    · simp only [hproj, if_false] at h
      cases hv : p.Validate with
      | some e => rw [hv] at h; cases h
      | none =>
        rw [hv] at h
        by_cases hdup : (c.pledges.any fun existing => hasDuplicateInputs existing p) = true
        · rw [if_pos hdup] at h; cases h
        · rw [if_neg hdup] at h
          cases h
          exact ⟨rfl, rfl, rfl⟩

/-- Witness for C5: a structurally valid pledge for the right project with
fresh inputs is accepted and appended. -/
theorem addPledge_spec_witness :
    (NewContract exProj).AddPledge exPl1 = .ok ⟨exProj, [exPl1], none⟩
    ∧ (⟨exProj, [exPl1], none⟩ : Contract).pledges
        = (NewContract exProj).pledges ++ [exPl1] := by
  have h := (addPledge_spec (NewContract exProj) exPl1).2 ⟨exProj, [exPl1], none⟩ rfl
  exact ⟨rfl, h.1⟩

/-! ## C6 -/

/-- A project with goal 100000 (minimum pledge 10000). -/
def p6Ex : Project := tinyProject 100000

/-- A second 20000-satoshi UTXO at a different outpoint than `u3Ex`. -/
def u6b : UTXO := ⟨h32b, 0, [2], 20000⟩

/-- The pledge message `NewPledge p6Ex 10000 [u3Ex, u6b] 0` builds: one
stored input per supplied UTXO. -/
def pl6Pb : PbPledge :=
  ⟨p6Ex.ID, [⟨h32, 0, [], 4294967295⟩, ⟨h32b, 0, [], 4294967295⟩], 0, "", "", none⟩

/-- The pledge `NewPledge p6Ex 10000 [u3Ex, u6b] 0` creates: both UTXOs
become inputs even though the first alone covers the amount. -/
def pl6Ex : Pledge :=
  ⟨pl6Pb, calculatePledgeID pl6Pb, 10000,
   ⟨[utxoInput u3Ex, utxoInput u6b], [⟨10000, [1]⟩]⟩⟩

/-- C6 counterexample: with two 20000-satoshi UTXOs and a requested amount
of 10000, the shortest prefix of `availableInputs` covering the amount is
the first UTXO alone, yet the created pledge's transaction contains both
UTXOs as inputs — `AddInputsFromUTXOs` adds every supplied UTXO before the
accumulation walk runs. -/
theorem pledge_prefix_claim_cex :
    NewPledge p6Ex 10000 [u3Ex, u6b] 0 = .ok pl6Ex
    ∧ 10000 ≤ ([u3Ex].map UTXO.satoshis).sum
    ∧ pl6Ex.tx.inputs = [u3Ex, u6b].map utxoInput
    ∧ pl6Ex.tx.inputs.length = 2
    ∧ pl6Ex.tx.inputs ≠ [u3Ex].map utxoInput :=
  ⟨rfl, by decide, rfl, rfl, by decide⟩

/-- C6 (amended): every pledge built by `NewPledge` has as its transaction
inputs *all* of `availableInputs`, in caller-supplied order; the
accumulating walk only decides sufficiency (it fails iff the whole list's
total is below the amount) and does not limit which inputs are included. -/
theorem pledge_inputs_all (project : Project) (amount : Nat) (utxos : List UTXO)
    (now : Nat) (p : Pledge)
    (hok : NewPledge project amount utxos now = .ok p) :
    p.tx.inputs = utxos.map utxoInput := by
  by_cases hmin : amount < project.MinPledgeAmount
  · rw [NewPledge] at hok
    simp [hmin] at hok
  · by_cases hins : selectTotal amount 0 utxos < amount
    · rw [NewPledge] at hok
      simp [hmin, hins] at hok
    · rw [NewPledge] at hok
      cases houts : project.Outputs with
      | error msg =>
        simp [if_neg hmin, if_neg hins, houts] at hok
      | ok outs =>
        simp only [if_neg hmin, if_neg hins, houts, Except.ok.injEq] at hok
        subst hok
        rfl

/-- Witness for the amended C6 at the concrete two-UTXO example. -/
theorem pledge_inputs_all_witness :
    pl6Ex.tx.inputs = [u3Ex, u6b].map utxoInput :=
  pledge_inputs_all p6Ex 10000 [u3Ex, u6b] 0 pl6Ex rfl

/-! ## C7 -/

/-- When even the whole UTXO list cannot reach `amount`, the accumulation
loop runs to the end and returns the full sum (plus the accumulator). -/
theorem selectTotal_eq_of_lt (amount : Nat) (utxos : List UTXO) :
    ∀ acc : Nat, acc + (utxos.map UTXO.satoshis).sum < amount →
      selectTotal amount acc utxos = acc + (utxos.map UTXO.satoshis).sum := by
  induction utxos with
  | nil =>
    intro acc h
    simp [selectTotal]
  | cons u rest ih =>
    intro acc h
    rw [selectTotal]
    simp only [List.map_cons, List.sum_cons] at h
    rw [if_neg (by omega : ¬ amount ≤ acc + u.satoshis)]
    rw [ih (acc + u.satoshis) (by omega)]
    simp only [List.map_cons, List.sum_cons]
    omega

/-- C7: `NewPledge` fails with a `ValidationError` carrying the amount and
the minimum — before any input selection, i.e. for every UTXO list —
whenever `amount < minPledgeAmount`; otherwise it fails with an
`InsufficientFundsError` carrying the available total (the sum of all
supplied UTXOs' values) and the required amount whenever that total is below
the amount. -/
theorem newPledge_failures (project : Project) (amount : Nat) (utxos : List UTXO)
    (now : Nat) :
    (amount < project.MinPledgeAmount →
      NewPledge project amount utxos now
        = .error (.belowMinimum amount project.MinPledgeAmount))
    ∧ (project.MinPledgeAmount ≤ amount →
        (utxos.map UTXO.satoshis).sum < amount →
      NewPledge project amount utxos now
        = .error (.insufficientFunds (utxos.map UTXO.satoshis).sum amount)) := by
  constructor
  · intro hmin
    rw [NewPledge]
    simp [hmin]
  · intro hmin hsum
    have hsel : selectTotal amount 0 utxos = (utxos.map UTXO.satoshis).sum := by
      have h := selectTotal_eq_of_lt amount utxos 0 (by omega)
      simpa using h
    rw [NewPledge]
    rw [if_neg (by omega : ¬ amount < project.MinPledgeAmount)]
    simp only [hsel]
    rw [if_pos hsum]

/-- Witness for C7: a below-minimum request fails with the validation error
for any UTXO list; a 30000 request against a single 20000-satoshi UTXO fails
with `insufficientFunds 20000 30000`. -/
theorem newPledge_failures_witness :
    NewPledge exProj 5000 [u3Ex] 0
      = .error (.belowMinimum 5000 exProj.MinPledgeAmount)
    ∧ NewPledge exProj 30000 [u3Ex] 0
      = .error (.insufficientFunds (([u3Ex].map UTXO.satoshis).sum) 30000) :=
  ⟨(newPledge_failures exProj 5000 [u3Ex] 0).1 (by decide),
   (newPledge_failures exProj 30000 [u3Ex] 0).2 (by decide) (by decide)⟩

/-! ## C8 -/

/-- C8: for every validly created project, loading its serialized form
succeeds and reproduces the id, title, description, goal amount and minimum
pledge amount, with the loaded goal amount recomputed as the sum of the
decoded outputs' amounts (the serialized message stores no goal total at
all). -/
theorem project_roundtrip (title description : String) (goal : Nat)
    (address : String) (now : Nat) (p : Project)
    (hok : NewProject title description goal address now = .ok p) :
    ∃ q, LoadProject p.Serialize = .ok q
      ∧ q.ID = p.ID
      ∧ q.Title = p.Title
      ∧ q.Description = p.Description
      ∧ q.GoalAmount = p.GoalAmount
      ∧ q.MinPledgeAmount = p.MinPledgeAmount
      ∧ ∃ d, p.Serialize.details = some d
          ∧ q.GoalAmount = (d.outputs.map PbOutput.amount).sum := by
  rw [NewProject] at hok
  by_cases hts : title = "" ∨ description = ""
  · simp [hts] at hok
  · by_cases hg : goal = 0
    · simp [hts, hg] at hok
    · cases haddr : decodeAddress address with
      | none => simp [hts, hg, haddr] at hok
      | some ls =>
        simp only [if_neg hts, if_neg hg, haddr, Except.ok.injEq] at hok
        subst hok
        exact ⟨_, rfl, rfl, rfl, rfl, rfl, rfl, _, rfl, rfl⟩

/-- Witness for C8 at the concrete project `p3Ex` created by `NewProject`. -/
theorem project_roundtrip_witness :
    ∃ q, LoadProject p3Ex.Serialize = .ok q
      ∧ q.ID = p3Ex.ID
      ∧ q.Title = p3Ex.Title
      ∧ q.Description = p3Ex.Description
      ∧ q.GoalAmount = p3Ex.GoalAmount
      ∧ q.MinPledgeAmount = p3Ex.MinPledgeAmount
      ∧ ∃ d, p3Ex.Serialize.details = some d
          ∧ q.GoalAmount = (d.outputs.map PbOutput.amount).sum :=
  project_roundtrip "Test" "Desc" 16553 exAddr 0 p3Ex rfl

/-! ## C9 -/

/-- C9: every pledge `LoadPledge` reconstructs has amount 0 and an
output-less transaction (neither is recovered from the persisted message),
hence `Validate` rejects it and `AddPledge` rejects it on every contract. -/
theorem loadPledge_degenerate (m : PbPledge) (p : Pledge)
    (hok : LoadPledge m = .ok p) :
    p.Amount = 0 ∧ p.tx.outputs = []
    ∧ p.Validate.isSome = true
    ∧ ∀ c : Contract, ¬ ∃ c2, c.AddPledge p = .ok c2 := by
  have hmain : p.amount = 0 ∧ p.tx.outputs = [] := by
    rw [LoadPledge] at hok
    cases hin : loadInputs m.inputs with
    | error e => rw [hin] at hok; cases hok
    | ok ins =>
      rw [hin] at hok
      have h := Except.ok.inj hok
      subst h
      exact ⟨rfl, rfl⟩
  obtain ⟨ham, hout⟩ := hmain
  have hval : p.Validate.isSome = true := by
    rw [Pledge.Validate]
    by_cases hin : p.tx.inputs.isEmpty
    · simp [hin]
    · simp [hin, hout]
  refine ⟨ham, hout, hval, ?_⟩
  intro c h
  obtain ⟨c2, hc2⟩ := h
  rw [Contract.AddPledge] at hc2
  by_cases hproj : p.ProjectID ≠ c.project.ID
  · rw [if_pos hproj] at hc2; cases hc2
  · rw [if_neg hproj] at hc2
    cases hv : p.Validate with
    | some e => rw [hv] at hc2; cases hc2
    | none => rw [hv] at hval; simp at hval

/-- The pledge message of a persisted (and then reloaded) pledge: one signed
input spending `(h32, 0)`. -/
def m9 : PbPledge := ⟨exProj.ID, [⟨h32, 0, [1], 0⟩], 0, "", "", none⟩

/-- The pledge `LoadPledge m9` reconstructs: amount 0, no outputs. -/
def pl9 : Pledge := ⟨m9, calculatePledgeID m9, 0, ⟨[⟨h32, 0, some [1], 0, none⟩], []⟩⟩

/-- Witness for C9 at the concrete loaded pledge `pl9`. -/
theorem loadPledge_degenerate_witness :
    pl9.Amount = 0 ∧ pl9.tx.outputs = [] ∧ pl9.Validate.isSome = true
    ∧ ¬ ∃ c2, (NewContract exProj).AddPledge pl9 = .ok c2 := by
  have h := loadPledge_degenerate m9 pl9 rfl
  exact ⟨h.1, h.2.1, h.2.2.1, h.2.2.2 (NewContract exProj)⟩

/-! ## C10 -/

/-- C10: the duplicate-input check compares a candidate pledge only against
previously accepted pledges, never within the candidate itself: a
structurally valid pledge whose own input list repeats the same
`(sourceTxId, outputIndex)` outpoint is accepted whenever it targets the
contract's project and shares no outpoint with the already accepted
pledges. -/
theorem addPledge_accepts_internal_dup (c : Contract) (p : Pledge)
    (i j : Fin p.tx.inputs.length) (hij : i ≠ j)
    (hkey : inputKey (p.tx.inputs.get i) = inputKey (p.tx.inputs.get j))
    (hproj : p.ProjectID = c.project.ID)
    (hval : p.Validate = none)
    (hnodup : (c.pledges.any fun q => hasDuplicateInputs q p) = false) :
    c.AddPledge p = .ok { c with pledges := c.pledges ++ [p] } := by
  rw [Contract.AddPledge]
  rw [if_neg (show ¬ p.ProjectID ≠ c.project.ID from fun h => h hproj)]
  rw [hval]
  rw [if_neg (by simp [hnodup])]

/-- The message of a pledge that spends the same outpoint `(h32, 0)` twice. -/
def p10Pb : PbPledge :=
  ⟨exProj.ID, [⟨h32, 0, [1, 2], 4294967295⟩, ⟨h32, 0, [1, 2], 4294967295⟩], 0, "", "", none⟩

/-- A structurally valid, signed pledge listing the outpoint `(h32, 0)`
twice among its own inputs. -/
def p10 : Pledge :=
  ⟨p10Pb, calculatePledgeID p10Pb, 5000,
   ⟨[signedInput h32 0 5000, signedInput h32 0 5000], [⟨1, [1]⟩]⟩⟩

/-- Witness for C10: an empty contract accepts `p10` despite its internal
duplicate outpoint. -/
theorem addPledge_accepts_internal_dup_witness :
    (NewContract exProj).AddPledge p10
      = .ok { NewContract exProj with pledges := (NewContract exProj).pledges ++ [p10] } :=
  addPledge_accepts_internal_dup (NewContract exProj) p10 ⟨0, by decide⟩ ⟨1, by decide⟩
    (by decide) rfl rfl rfl rfl
